import Mathlib

/-!
Verification of the transcriber front end: the timed-segment data model, the
playback synchronizer in `components/TranscriptDisplay.tsx`, the application
data types in `types.ts`, the generation flow in `App.tsx` and
`services/geminiService.ts`, and the transcript-markdown parser described in
the specification.  JavaScript strings are embedded as `List Char`,
JavaScript numbers appearing only as exact decimal quantities as `ℚ`.
-/

namespace Transcriber

/-- A timed transcript segment as the rendering component expects it:
the fields read by `TranscriptDisplay.tsx` (`segment.startTime`,
`segment.endTime`, `segment.text`). -/
structure TimedSegment where
  startTime : ℚ
  endTime : ℚ
  text : List Char
deriving DecidableEq, Repr

/-- `TranscriptDisplay.tsx` line 23:
`const isActive = currentTime >= segment.startTime && currentTime <= segment.endTime;`
evaluated on a segment that actually carries `startTime`/`endTime` fields. -/
def isActive (segment : TimedSegment) (currentTime : ℚ) : Bool :=
  decide (currentTime ≥ segment.startTime) && decide (currentTime ≤ segment.endTime)

/-- The segments rendered as highlighted by `TranscriptDisplay.tsx`:
each segment is styled independently by its own `isActive` value. -/
def activeSegs (segments : List TimedSegment) (currentTime : ℚ) : List TimedSegment :=
  segments.filter (fun s => isActive s currentTime)

/-- The parsed-sequence invariants of the specification (§3): start times are
non-decreasing, and the end time of each segment equals the start time of the
next. -/
def chainInv (segments : List TimedSegment) : Prop :=
  List.Chain' (fun a b => a.startTime ≤ b.startTime ∧ a.endTime = b.startTime) segments

/-- `currentTime` is the boundary instant shared by some adjacent pair of
segments: the end of segment `i` and the start of segment `i+1`. -/
def sharedBoundary (segments : List TimedSegment) (t : ℚ) : Prop :=
  ∃ i, i + 1 < segments.length ∧
    (segments.getD i ⟨0, 0, []⟩).endTime = t ∧ (segments.getD (i + 1) ⟨0, 0, []⟩).startTime = t

/-- A JavaScript runtime value as it occurs in the transcript data flow:
a number or a string. -/
inductive JSVal where
  | num (q : ℚ)
  | str (s : List Char)
deriving DecidableEq, Repr

/-- JavaScript `a >= b` restricted to the operands that occur in
`TranscriptDisplay.tsx`: numeric operands compare numerically; a missing
(`undefined`) operand makes the comparison `false` (`undefined` coerces to
`NaN`, and every `NaN` comparison is `false`).  String operands never reach
these comparisons in the component. -/
def jsGeB (a b : Option JSVal) : Bool :=
  match a, b with
  | some (JSVal.num x), some (JSVal.num y) => decide (x ≥ y)
  | _, _ => false

/-- JavaScript `a <= b`, under the same conventions as `jsGeB`. -/
def jsLeB (a b : Option JSVal) : Bool :=
  match a, b with
  | some (JSVal.num x), some (JSVal.num y) => decide (x ≤ y)
  | _, _ => false

/-- The application's exported segment type (`types.ts` lines 3-7): fields
`start`, `end`, `text` — there are no `startTime`/`endTime` fields. -/
structure TranscriptSegment where
  start : ℚ
  «end» : ℚ
  text : List Char
deriving DecidableEq, Repr

/-- The JavaScript object a `TranscriptSegment` value is at runtime: exactly
its declared own properties. -/
def segToJS (s : TranscriptSegment) : List (String × JSVal) :=
  [("start", JSVal.num s.start), ("end", JSVal.num s.«end»), ("text", JSVal.str s.text)]

/-- `TranscriptDisplay.tsx` line 23 as it executes on an arbitrary JavaScript
object: property reads `segment.startTime` / `segment.endTime` are lookups
that yield `undefined` (`none`) when the property is absent. -/
def isActiveJS (segment : List (String × JSVal)) (currentTime : ℚ) : Bool :=
  jsGeB (some (JSVal.num currentTime)) (segment.lookup "startTime") &&
    jsLeB (some (JSVal.num currentTime)) (segment.lookup "endTime")

/-- The generation result as consumed by `App.tsx` (`types.ts`): status,
subtitles and the transcript segment list. -/
structure GenerationResult where
  status : String
  subtitles_vtt : List Char
  transcript_json : List TranscriptSegment
deriving DecidableEq, Repr

/-- A single translation entry (`types.ts`). -/
structure Translation where
  subtitles_vtt : List Char
  transcript_json : List TranscriptSegment
deriving DecidableEq, Repr

/-- `Translations` (`types.ts`): a partial record from language codes to
translations, embedded as an association list. -/
abbrev Translations := List (String × Translation)

/-- `App.tsx` lines 167-172: the `displayedSegments` memo.
`if (activeLanguage === 'en' || !translations) return
generationResult?.transcript_json || [];
return translations[activeLanguage]?.transcript_json || [];` -/
def displayedSegments (activeLanguage : String) (generationResult : Option GenerationResult)
    (translations : Option Translations) : List TranscriptSegment :=
  if activeLanguage == "en" || translations.isNone then
    (generationResult.map GenerationResult.transcript_json).getD []
  else
    (((translations.getD []).lookup activeLanguage).map Translation.transcript_json).getD []

/-- Modelled from the spec: the transcript-markdown parser is absent from the
given sources (only its data model and consumers appear), so line splitting is
taken from the spec (§4.1): the input is split into lines. -/
def splitLines : List Char → List (List Char)
  | [] => [[]]
  | c :: cs =>
    if c = '\n' then [] :: splitLines cs
    else
      match splitLines cs with
      | [] => [[c]]
      | l :: ls => (c :: l) :: ls

/-- Whitespace as trimmed from segment text. -/
def wsChar (c : Char) : Bool :=
  c = ' ' || c = '\t' || c = '\r' || c = '\n'

/-- Leading and trailing whitespace removal. -/
def trimChars (l : List Char) : List Char :=
  ((l.dropWhile wsChar).reverse.dropWhile wsChar).reverse

/-- Decimal digit test on a character. -/
def isDigitChar (c : Char) : Bool :=
  48 ≤ c.toNat && c.toNat ≤ 57

/-- Numeric value of a decimal digit character. -/
def digitVal (c : Char) : ℕ :=
  c.toNat - 48

/-- Modelled from the spec: the parser's per-line step, absent from the given
sources.  A line is retained exactly when it starts with the fixed-width
pattern `(HH:MM:SS.mmm)` — two-digit hours/minutes/seconds, three-digit
milliseconds, literal parentheses, colons and dot (§4.1, §6).  The timestamp
components are parsed as base-10 integers and combined as
`hours*3600 + minutes*60 + seconds + milliseconds/1000`; the remainder of the
line, trimmed of leading/trailing whitespace, is the segment text.  Any other
line yields nothing. -/
def parseLine : List Char → Option (ℚ × List Char)
  | '(' :: h1 :: h2 :: ':' :: m1 :: m2 :: ':' :: s1 :: s2 :: '.' :: f1 :: f2 :: f3 :: ')' :: rest =>
    if isDigitChar h1 && isDigitChar h2 && isDigitChar m1 && isDigitChar m2 &&
        isDigitChar s1 && isDigitChar s2 && isDigitChar f1 && isDigitChar f2 &&
        isDigitChar f3 then
      some ((((digitVal h1 * 10 + digitVal h2) * 3600 + (digitVal m1 * 10 + digitVal m2) * 60 +
          (digitVal s1 * 10 + digitVal s2) : ℕ) : ℚ) +
          ((digitVal f1 * 100 + digitVal f2 * 10 + digitVal f3 : ℕ) : ℚ) / 1000,
        trimChars rest)
    else none
  | _ => none

/-- Modelled from the spec: the end-time assignment pass of the absent parser
(§4.1): for segment `i`, `endTime = segments[i+1].startTime` if a next segment
exists, otherwise `totalDurationSeconds`. -/
def assignEnds : List (ℚ × List Char) → ℚ → List TimedSegment
  | [], _ => []
  | [(s, t)], dur => [⟨s, dur, t⟩]
  | (s, t) :: (s2, t2) :: rest, dur => ⟨s, s2, t⟩ :: assignEnds ((s2, t2) :: rest) dur

/-- Modelled from the spec: the transcript-markdown parser
`parse(markdownText, totalDurationSeconds)` absent from the given sources
(§4.1): split into lines, keep the lines matching the timestamp pattern, and
assign end times in a single pass. -/
def parse (markdownText : List Char) (totalDurationSeconds : ℚ) : List TimedSegment :=
  assignEnds ((splitLines markdownText).filterMap parseLine) totalDurationSeconds

/-- Modelled from the spec: the parser's treatment of absent (`null`) input
(§4.1): an empty sequence, never an error. -/
def parseOpt (markdownText : Option (List Char)) (totalDurationSeconds : ℚ) :
    List TimedSegment :=
  match markdownText with
  | none => []
  | some text => parse text totalDurationSeconds

/-- The end-time pass preserves the number of segments. -/
lemma assignEnds_length : ∀ (ps : List (ℚ × List Char)) (dur : ℚ),
    (assignEnds ps dur).length = ps.length
  | [], _ => rfl
  | [(_, _)], _ => rfl
  | (_, _) :: (s2, t2) :: rest, dur => by
    simp [assignEnds, assignEnds_length ((s2, t2) :: rest) dur]

/-- The end-time pass keeps every start time and text unchanged, in order. -/
lemma assignEnds_map : ∀ (ps : List (ℚ × List Char)) (dur : ℚ),
    (assignEnds ps dur).map (fun s => (s.startTime, s.text)) = ps
  | [], _ => rfl
  | [(_, _)], _ => rfl
  | (s, t) :: (s2, t2) :: rest, dur => by
    simp [assignEnds, assignEnds_map ((s2, t2) :: rest) dur]

/-- Each non-final segment's end time is the next pair's start time. -/
lemma assignEnds_endTime : ∀ (ps : List (ℚ × List Char)) (dur : ℚ) (i : ℕ)
    (_h : i + 1 < ps.length),
    ((assignEnds ps dur).getD i ⟨0, 0, []⟩).endTime = (ps.getD (i + 1) ((0 : ℚ), [])).1
  | [], _, _, h => by simp at h
  | [(_, _)], _, _, h => by simp at h
  | (_, _) :: (_, _) :: _, _, 0, _ => rfl
  | (_, _) :: (s2, t2) :: rest, dur, i + 1, h => by
    simpa [assignEnds] using assignEnds_endTime ((s2, t2) :: rest) dur i (by simpa using h)

/-- The final segment's end time is the supplied total duration. -/
lemma assignEnds_lastEnd : ∀ (ps : List (ℚ × List Char)) (dur : ℚ), ps ≠ [] →
    ((assignEnds ps dur).getD (ps.length - 1) ⟨0, 0, []⟩).endTime = dur
  | [], _, h => absurd rfl h
  | [(_, _)], _, _ => rfl
  | (_, _) :: (s2, t2) :: rest, dur, _ => by
    simpa [assignEnds] using assignEnds_lastEnd ((s2, t2) :: rest) dur (by simp)

/-- Each segment's start time is its pair's start time. -/
lemma assignEnds_startTime : ∀ (ps : List (ℚ × List Char)) (dur : ℚ) (i : ℕ)
    (_h : i < ps.length),
    ((assignEnds ps dur).getD i ⟨0, 0, []⟩).startTime = (ps.getD i ((0 : ℚ), [])).1
  | [], _, _, h => by simp at h
  | [(_, _)], _, 0, _ => rfl
  | [(_, _)], _, i + 1, h => by simp at h
  | (_, _) :: (_, _) :: _, _, 0, _ => rfl
  | (_, _) :: (s2, t2) :: rest, dur, i + 1, h => by
    simpa [assignEnds] using assignEnds_startTime ((s2, t2) :: rest) dur i (by simpa using h)

/-- A JavaScript number as classified by the duration guard: a finite value,
`NaN`, or an infinity. -/
inductive JSNum where
  | fin (q : ℚ)
  | nan
  | posInf
  | negInf
deriving DecidableEq, Repr

/-- JavaScript `a <= b` on numbers: any comparison involving `NaN` is false;
infinities compare as expected; finite values compare numerically. -/
def jsNumLe (a b : JSNum) : Bool :=
  match a, b with
  | JSNum.nan, _ => false
  | _, JSNum.nan => false
  | JSNum.fin x, JSNum.fin y => decide (x ≤ y)
  | JSNum.negInf, _ => true
  | _, JSNum.posInf => true
  | JSNum.posInf, _ => false
  | JSNum.fin _, JSNum.negInf => false

/-- `Number.isFinite`. -/
def isFiniteNum : JSNum → Bool
  | JSNum.fin _ => true
  | _ => false

/-- The duration is non-positive or non-finite (the condition the spec asks
callers to guard against). -/
def nonPosOrNonFinite : JSNum → Bool
  | JSNum.fin q => decide (q ≤ 0)
  | _ => true

/-- The uploaded video file as the generation flow sees it: its byte size. -/
structure VideoFile where
  size : ℕ
deriving DecidableEq, Repr

/-- What `handleGenerate` in `App.tsx` does before any asynchronous work:
surface an error, or proceed to invoke the generation service. -/
inductive GenAction where
  | showError (msg : String)
  | invokeGeneration
deriving DecidableEq, Repr

/-- `App.tsx` lines 63-97, the synchronous guard prefix of `handleGenerate`:
`if (!videoFile) { setError(...); return; }
if (videoDuration <= 0 || !Number.isFinite(videoDuration)) { setError(...);
return; }` and otherwise the call to `generateTranscriptAndSubtitles`. -/
def handleGenerate (videoFile : Option VideoFile) (videoDuration : JSNum) : GenAction :=
  match videoFile with
  | none => GenAction.showError "Please upload a video before generating."
  | some _ =>
    if jsNumLe videoDuration (JSNum.fin 0) || !isFiniteNum videoDuration then
      GenAction.showError
        "Could not determine a valid video duration. The video file may be corrupt or still loading."
    else
      GenAction.invokeGeneration

/-- A playback surface (the `<video>` element) as the seek path touches it. -/
structure VideoElement where
  currentTime : ℚ
  duration : ℚ
deriving DecidableEq, Repr

/-- `App.tsx` lines 161-165: `handleSegmentClick` assigns
`videoRef.current.currentTime = time` whenever the ref is attached. -/
def handleSegmentClick (videoRef : Option VideoElement) (time : ℚ) : Option VideoElement :=
  match videoRef with
  | none => none
  | some v => some { v with currentTime := time }

/-- `TranscriptDisplay.tsx` line 27: the click handler of a segment row calls
`onSegmentClick(segment.startTime)`. -/
def segmentClickArg (segment : TimedSegment) : ℚ :=
  segment.startTime

/-- The server-side state of an uploaded file (`FileState` of the SDK). -/
inductive FileSt where
  | PROCESSING
  | ACTIVE
  | FAILED
  | STATE_UNSPECIFIED
deriving DecidableEq, Repr

/-- The externally observable requests and delays of the generation flow. -/
inductive Ev where
  | upload
  | wait (ms : ℕ)
  | getFile
  | analyze
  | deleteFile
deriving DecidableEq, Repr

/-- `geminiService.ts` lines 170-176, the poll loop:
`while (uploadedFile.state === FileState.PROCESSING) {
 await new Promise(resolve => setTimeout(resolve, 5000));
 const getFileResponse = await ai.files.get({name: uploadedFile.name});
 uploadedFile = getFileResponse; }`.
`next i` is the state returned by the `i`-th `ai.files.get` call; `fuel`
bounds the iterations observed, with `none` standing for an execution that is
still polling.  The returned trace lists the delays and requests the loop
issued, and the state the loop exited with. -/
def pollTrace (next : ℕ → FileSt) : ℕ → FileSt → ℕ → Option (List Ev × FileSt)
  | 0, s, _ => if s = FileSt.PROCESSING then none else some ([], s)
  | fuel + 1, s, i =>
    if s = FileSt.PROCESSING then
      match pollTrace next fuel (next i) (i + 1) with
      | none => none
      | some (evs, sf) => some (Ev.wait 5000 :: Ev.getFile :: evs, sf)
    else some ([], s)

/-- `geminiService.ts` line 142: the 500 MB limit. -/
def fileSizeLimit : ℕ := 500 * 1024 * 1024

/-- `geminiService.ts` lines 136-213, `generateTranscriptAndSubtitles` as its
trace of requests: the size guard (`if (videoFile.size > 500 * 1024 * 1024)
throw ...`) runs before anything else; then the upload, the poll loop, the
`state !== ACTIVE` check (`throw` when it fails), and only then the
`generateContent` analysis call and the file delete.  The boolean records
whether the call returned a result (`true`) or threw (`false`). -/
def generateTranscriptAndSubtitles (videoFile : VideoFile) (s0 : FileSt)
    (next : ℕ → FileSt) (fuel : ℕ) : Option (List Ev × Bool) :=
  if videoFile.size > fileSizeLimit then some ([], false)
  else
    match pollTrace next fuel s0 0 with
    | none => none
    | some (evs, sf) =>
      if sf = FileSt.ACTIVE then
        some (Ev.upload :: evs ++ [Ev.analyze, Ev.deleteFile], true)
      else
        some (Ev.upload :: evs, false)

/-- A file-state stream that reports `ACTIVE` on every poll. -/
def alwaysActive : ℕ → FileSt := fun _ => FileSt.ACTIVE

/-- The spec's concrete scenario: two timestamp lines against duration 10. -/
lemma parse_sample :
    parse "(00:00:01.000) Hello\n(00:00:03.500) world\n".data 10 =
      [⟨1, 7 / 2, "Hello".data⟩, ⟨7 / 2, 10, "world".data⟩] := by
  simp [parse, splitLines, parseLine, assignEnds, isDigitChar, digitVal, trimChars, wsChar]
  norm_num

end Transcriber

namespace Transcriber

/-- Start times are monotone along a chained sequence. -/
lemma chainInv_start_le (segs : List TimedSegment) (hc : chainInv segs) (i j : ℕ)
    (hij : i ≤ j) (hj : j < segs.length) :
    (segs.get ⟨i, by omega⟩).startTime ≤ (segs.get ⟨j, hj⟩).startTime := by
  have h1 : List.Chain' (· ≤ ·) (segs.map TimedSegment.startTime) := by
    rw [List.chain'_map]
    exact hc.imp fun a b h => h.1
  have h2 : List.Pairwise (· ≤ ·) (segs.map TimedSegment.startTime) :=
    List.chain'_iff_pairwise.mp h1
  rcases Nat.eq_or_lt_of_le hij with rfl | hlt
  · exact le_refl _
  · have := List.pairwise_iff_get.mp h2 ⟨i, by simpa using by omega⟩
      ⟨j, by simpa using hj⟩ hlt
    simpa using this

/-- Adjacent segments of a chained sequence share their boundary:
`endTime` of segment `i` equals `startTime` of segment `i + 1`. -/
lemma chainInv_adjacent (segs : List TimedSegment) (hc : chainInv segs) (i : ℕ)
    (h : i + 1 < segs.length) :
    (segs.get ⟨i, by omega⟩).endTime = (segs.get ⟨i + 1, h⟩).startTime :=
  (List.chain'_iff_get.mp hc i (by omega)).2

/-- C1 counterexample: the code's predicate is not the half-open one.  For the
segment with `startTime = 10`, `endTime = 20`, at `currentTime = 20` the code
yields `true`, while the half-open convention demands `false`. -/
theorem isActive_not_halfOpen_at_20 :
    ¬ (isActive ⟨10, 20, []⟩ 20 = true ↔ ((10 : ℚ) ≤ 20 ∧ (20 : ℚ) < 20)) := by
  decide

/-- C1 (amended): `isActive` uses closed-interval semantics: it is true exactly
when `startTime ≤ currentTime ≤ endTime`; in particular for a segment with
`startTime = 10`, `endTime = 20` it is true at `currentTime = 10` and also true
at `currentTime = 20`. -/
theorem isActive_closed_interval (segment : TimedSegment) (currentTime : ℚ) :
    (isActive segment currentTime = true ↔
      segment.startTime ≤ currentTime ∧ currentTime ≤ segment.endTime) ∧
    isActive ⟨10, 20, []⟩ 10 = true ∧ isActive ⟨10, 20, []⟩ 20 = true := by
  refine ⟨?_, by decide, by decide⟩
  simp [isActive, and_comm]

/-- C2: every value of the exported `TranscriptSegment` type has only
`start`/`end`/`text` properties, so the active-segment predicate of
`TranscriptDisplay` — which reads `segment.startTime` and `segment.endTime` —
evaluates to `false` on it for every `currentTime`; hence no segment supplied
by `App` via `displayedSegments` is ever marked active. -/
theorem displayedSegments_never_active (activeLanguage : String)
    (generationResult : Option GenerationResult) (translations : Option Translations)
    (currentTime : ℚ) (s : TranscriptSegment)
    (_hs : s ∈ displayedSegments activeLanguage generationResult translations) :
    isActiveJS (segToJS s) currentTime = false := by
  rfl

/-- C2 witness: a concrete segment displayed by `App` in the English view is
not active at `currentTime = 1` even though `1` lies between its `start` and
`end`. -/
theorem displayedSegments_never_active_witness :
    isActiveJS (segToJS ⟨0, 2, []⟩) 1 = false :=
  displayedSegments_never_active "en" (some ⟨"ok", [], [⟨0, 2, []⟩]⟩) none 1 ⟨0, 2, []⟩
    (by simp [displayedSegments])

/-- C3 counterexample: the display applies no first-match-wins tie-break.  For
the chained sequence `[0,10], [10,20]` at the boundary instant `10`, both
segments satisfy `isActive`, so two segments are rendered as active. -/
theorem boundary_highlights_two_segments :
    chainInv [⟨0, 10, []⟩, ⟨10, 20, []⟩] ∧
    isActive ⟨0, 10, []⟩ 10 = true ∧ isActive ⟨10, 20, []⟩ 10 = true ∧
    (activeSegs [⟨0, 10, []⟩, ⟨10, 20, []⟩] 10).length = 2 := by
  refine ⟨?_, by decide, by decide, by decide⟩
  simp [chainInv]

/-- C3 (amended): under the closed convention the display highlights every
segment whose interval contains `currentTime`, with no tie-break; for a
sequence satisfying the parsed-sequence invariants this still marks at most
one segment active at every instant that is not a boundary shared by two
adjacent segments, but at a shared boundary both adjacent segments are marked
active (see the counterexample). -/
theorem active_at_most_one_off_boundary (segs : List TimedSegment) (t : ℚ)
    (hc : chainInv segs) (hnb : ¬ sharedBoundary segs t) (i j : ℕ)
    (hij : i < j) (hj : j < segs.length) :
    ¬ (isActive segs[i] t = true ∧ isActive segs[j] t = true) := by
  rintro ⟨ha, hb⟩
  have hi : i < segs.length := by omega
  have hi1 : i + 1 < segs.length := by omega
  simp only [isActive, Bool.and_eq_true, decide_eq_true_eq, ge_iff_le] at ha hb
  have hadj := chainInv_adjacent segs hc i hi1
  have hmono := chainInv_start_le segs hc (i + 1) j hij hj
  -- t ≤ endTime i = startTime (i+1) ≤ startTime j ≤ t, so all are equal to t
  have he : segs[i].endTime = t := by
    simp only [List.get_eq_getElem] at hadj hmono
    have := ha.2
    have := hb.1
    linarith
  have hs : segs[i + 1].startTime = t := by
    simp only [List.get_eq_getElem] at hadj hmono
    have := ha.2
    have := hb.1
    linarith
  exact hnb ⟨i, hi1, by
    rw [List.getD_eq_getElem _ _ hi]
    exact he, by
    rw [List.getD_eq_getElem _ _ hi1]
    exact hs⟩

/-- C3 witness: away from shared boundaries at most one segment is active —
at `currentTime = 5` the two chained segments `[0,10], [10,20]` are not both
active. -/
theorem active_at_most_one_off_boundary_witness :
    ¬ (isActive (⟨0, 10, []⟩ : TimedSegment) 5 = true ∧
       isActive (⟨10, 20, []⟩ : TimedSegment) 5 = true) :=
  active_at_most_one_off_boundary [⟨0, 10, []⟩, ⟨10, 20, []⟩] 5
    (by simp [chainInv])
    (by
      rintro ⟨k, hk, he, hs⟩
      have hk0 : k = 0 := by simp at hk; omega
      subst hk0
      simp [List.getD] at he)
    0 1 (by omega) (by simp)

/-- C4 (spec-modelled): end times come from a single backward-looking pass:
for every parsed sequence of `N` segments, `segments[i].endTime` equals
`segments[i+1].startTime` for all `i < N - 1`, and `segments[N-1].endTime`
equals the `totalDurationSeconds` argument. -/
theorem parse_end_time_single_pass (text : List Char) (dur : ℚ) :
    (∀ i, i + 1 < (parse text dur).length →
      ((parse text dur).getD i ⟨0, 0, []⟩).endTime =
        ((parse text dur).getD (i + 1) ⟨0, 0, []⟩).startTime) ∧
    (parse text dur ≠ [] →
      ((parse text dur).getD ((parse text dur).length - 1) ⟨0, 0, []⟩).endTime = dur) := by
  constructor
  · intro i hi
    rw [parse] at hi ⊢
    rw [assignEnds_length] at hi
    rw [assignEnds_endTime _ _ _ hi, assignEnds_startTime _ _ _ hi]
  · intro hne
    rw [parse] at hne ⊢
    rw [assignEnds_length]
    refine assignEnds_lastEnd _ _ ?_
    intro hnil
    exact hne (by rw [hnil]; rfl)

/-- C4 witness: on the spec's concrete two-line scenario with duration 10, the
first segment ends where the second starts, and the last segment ends at 10. -/
theorem parse_end_time_single_pass_witness :
    ((parse "(00:00:01.000) Hello\n(00:00:03.500) world\n".data 10).getD 0 ⟨0, 0, []⟩).endTime =
      ((parse "(00:00:01.000) Hello\n(00:00:03.500) world\n".data 10).getD 1 ⟨0, 0, []⟩).startTime ∧
    ((parse "(00:00:01.000) Hello\n(00:00:03.500) world\n".data 10).getD
      ((parse "(00:00:01.000) Hello\n(00:00:03.500) world\n".data 10).length - 1)
      ⟨0, 0, []⟩).endTime = 10 :=
  ⟨(parse_end_time_single_pass _ 10).1 0 (by rw [parse_sample]; decide),
   (parse_end_time_single_pass _ 10).2 (by rw [parse_sample]; decide)⟩

/-- C5 (spec-modelled): round-trip ordering and decoding.  The parsed segments
are, in order, exactly the retained timestamp lines; a line starting with the
fixed-width `(HH:MM:SS.mmm)` pattern decodes to
`hours*3600 + minutes*60 + seconds + milliseconds/1000` with the remainder of
the line trimmed as text; and the spec's concrete scenario evaluates as
stated. -/
theorem parse_round_trip :
    (∀ (text : List Char) (dur : ℚ),
      (parse text dur).map (fun s => (s.startTime, s.text)) =
        (splitLines text).filterMap parseLine) ∧
    (∀ (h1 h2 m1 m2 s1 s2 f1 f2 f3 : Char) (rest : List Char),
      isDigitChar h1 = true → isDigitChar h2 = true → isDigitChar m1 = true →
      isDigitChar m2 = true → isDigitChar s1 = true → isDigitChar s2 = true →
      isDigitChar f1 = true → isDigitChar f2 = true → isDigitChar f3 = true →
      parseLine ('(' :: h1 :: h2 :: ':' :: m1 :: m2 :: ':' :: s1 :: s2 :: '.' ::
          f1 :: f2 :: f3 :: ')' :: rest) =
        some ((((digitVal h1 * 10 + digitVal h2) * 3600 +
            (digitVal m1 * 10 + digitVal m2) * 60 + (digitVal s1 * 10 + digitVal s2) : ℕ) : ℚ) +
            ((digitVal f1 * 100 + digitVal f2 * 10 + digitVal f3 : ℕ) : ℚ) / 1000,
          trimChars rest)) ∧
    parse "(00:00:01.000) Hello\n(00:00:03.500) world\n".data 10 =
      [⟨1, 7 / 2, "Hello".data⟩, ⟨7 / 2, 10, "world".data⟩] := by
  refine ⟨?_, ?_, parse_sample⟩
  · intro text dur
    rw [parse, assignEnds_map]
  · intro h1 h2 m1 m2 s1 s2 f1 f2 f3 rest d1 d2 d3 d4 d5 d6 d7 d8 d9
    simp [parseLine, d1, d2, d3, d4, d5, d6, d7, d8, d9]

/-- C5 witness: the decode clause applied to the concrete line
`(00:00:02.500) hi`. -/
theorem parse_round_trip_witness :
    parseLine ('(' :: '0' :: '0' :: ':' :: '0' :: '0' :: ':' :: '0' :: '2' :: '.' ::
        '5' :: '0' :: '0' :: ')' :: ' ' :: 'h' :: 'i' :: []) =
      some ((((digitVal '0' * 10 + digitVal '0') * 3600 +
          (digitVal '0' * 10 + digitVal '0') * 60 + (digitVal '0' * 10 + digitVal '2') : ℕ) : ℚ) +
          ((digitVal '5' * 100 + digitVal '0' * 10 + digitVal '0' : ℕ) : ℚ) / 1000,
        trimChars (' ' :: 'h' :: 'i' :: [])) :=
  parse_round_trip.2.1 '0' '0' '0' '0' '0' '2' '5' '0' '0' (' ' :: 'h' :: 'i' :: [])
    (by decide) (by decide) (by decide) (by decide) (by decide) (by decide)
    (by decide) (by decide) (by decide)

/-- C6 (spec-modelled): the parser is total — it is a function returning a
sequence for every input.  Absent (`null`) input and empty input yield the
empty sequence, a text all of whose lines fail the timestamp pattern yields
the empty sequence, and a line failing the pattern contributes no segment:
dropping it from the line sequence leaves the output unchanged. -/
theorem parse_total_noise_robust :
    (∀ dur : ℚ, parseOpt none dur = []) ∧
    (∀ dur : ℚ, parse [] dur = []) ∧
    (∀ (text : List Char) (dur : ℚ),
      (∀ l ∈ splitLines text, parseLine l = none) → parse text dur = []) ∧
    (∀ (ls1 ls2 : List (List Char)) (l : List Char) (dur : ℚ), parseLine l = none →
      assignEnds (List.filterMap parseLine (ls1 ++ l :: ls2)) dur =
        assignEnds (List.filterMap parseLine (ls1 ++ ls2)) dur) := by
  refine ⟨fun _ => rfl, fun _ => rfl, ?_, ?_⟩
  · intro text dur hall
    rw [parse, List.filterMap_eq_nil_iff.mpr hall]
    rfl
  · intro ls1 ls2 l dur hl
    simp [List.filterMap_append, List.filterMap_cons, hl]

/-- C6 witness: a prose line produces no segments, and dropping a malformed
line from a line sequence leaves the parsed output unchanged. -/
theorem parse_total_noise_robust_witness :
    parse "Note: intro".data 5 = [] ∧
    assignEnds (List.filterMap parseLine ([] ++ ('x' :: []) :: [['y']])) 5 =
      assignEnds (List.filterMap parseLine ([] ++ [['y']])) 5 :=
  ⟨parse_total_noise_robust.2.2.1 "Note: intro".data 5 (by decide),
   parse_total_noise_robust.2.2.2 [] [['y']] ('x' :: []) 5 (by decide)⟩

/-- The poll loop issues only delays and `files.get` requests, every delay is
the fixed 5000 ms one, and it exits only on a non-`PROCESSING` state. -/
lemma pollTrace_spec (next : ℕ → FileSt) (fuel : ℕ) :
    ∀ (s : FileSt) (i : ℕ) (evs : List Ev) (sf : FileSt),
      pollTrace next fuel s i = some (evs, sf) →
      Ev.analyze ∉ evs ∧ Ev.upload ∉ evs ∧ (∀ ms, Ev.wait ms ∈ evs → ms = 5000) ∧
        sf ≠ FileSt.PROCESSING := by
  induction fuel with
  | zero =>
    intro s i evs sf h
    by_cases hs : s = FileSt.PROCESSING <;> simp [pollTrace, hs] at h
    obtain ⟨rfl, rfl⟩ := h
    simp [hs]
  | succ fuel ih =>
    intro s i evs sf h
    by_cases hs : s = FileSt.PROCESSING
    · simp only [pollTrace, hs, if_true] at h
      cases hp : pollTrace next fuel (next i) (i + 1) with
      | none => rw [hp] at h; simp at h
      | some p =>
        obtain ⟨evs2, sf2⟩ := p
        rw [hp] at h
        simp only [Option.some.injEq, Prod.mk.injEq] at h
        obtain ⟨rfl, rfl⟩ := h
        obtain ⟨h1, h2, h3, h4⟩ := ih (next i) (i + 1) evs2 sf2 hp
        refine ⟨by simp [h1], by simp [h2], ?_, h4⟩
        intro ms hms
        simp only [List.mem_cons] at hms
        rcases hms with heq | heq | hin
        · exact (Ev.wait.injEq _ _).mp heq
        · exact absurd heq (by simp)
        · exact h3 ms hin
    · simp [pollTrace, hs] at h
      obtain ⟨rfl, rfl⟩ := h
      simp [hs]

/-- C7: with a video file present, `handleGenerate` surfaces the
invalid-duration error and stops (never reaching the generation call) exactly
when the duration is non-positive or non-finite, and proceeds to invoke the
generation service exactly when the duration is a finite positive number. -/
theorem handleGenerate_duration_guard (f : VideoFile) (d : JSNum) :
    (nonPosOrNonFinite d = true →
      handleGenerate (some f) d = GenAction.showError
        "Could not determine a valid video duration. The video file may be corrupt or still loading.") ∧
    (nonPosOrNonFinite d = false →
      handleGenerate (some f) d = GenAction.invokeGeneration) := by
  constructor <;> intro h <;>
    cases d <;> simp_all [nonPosOrNonFinite, handleGenerate, jsNumLe, isFiniteNum]

/-- C7 witness: `NaN` durations are rejected with the user-facing message and
a duration of 5 seconds passes the guard. -/
theorem handleGenerate_duration_guard_witness :
    handleGenerate (some ⟨0⟩) JSNum.nan = GenAction.showError
      "Could not determine a valid video duration. The video file may be corrupt or still loading." ∧
    handleGenerate (some ⟨0⟩) (JSNum.fin 5) = GenAction.invokeGeneration :=
  ⟨(handleGenerate_duration_guard ⟨0⟩ JSNum.nan).1 (by decide),
   (handleGenerate_duration_guard ⟨0⟩ (JSNum.fin 5)).2 (by decide)⟩

/-- C8: clicking a segment seeks to `segment.startTime` unconditionally: the
click handler passes exactly `segment.startTime`, and the seek path writes it
to the playback surface's `currentTime` for every target value, with no
clamping to and no validation against the media's playable range
(`[0, duration]`). -/
theorem segment_click_seeks_unvalidated (segment : TimedSegment) (v : VideoElement)
    (t : ℚ) (_hout : t < 0 ∨ v.duration < t) :
    handleSegmentClick (some v) (segmentClickArg segment) =
      some { v with currentTime := segment.startTime } ∧
    handleSegmentClick (some v) t = some { v with currentTime := t } := by
  exact ⟨rfl, rfl⟩

/-- C8 witness: a click on the segment starting at 42 on a 30-second video
sets `currentTime` to 42, past the end of the playable range. -/
theorem segment_click_seeks_unvalidated_witness :
    handleSegmentClick (some ⟨0, 30⟩) (segmentClickArg ⟨42, 50, []⟩) =
      some ⟨42, 30⟩ ∧
    handleSegmentClick (some ⟨0, 30⟩) 42 = some ⟨42, 30⟩ :=
  segment_click_seeks_unvalidated ⟨42, 50, []⟩ ⟨0, 30⟩ 42 (Or.inr (by norm_num))

/-- C9: within the size limit, the generation flow polls on the fixed
5-second interval while the file is `PROCESSING`, the analysis request is
issued only in executions whose poll loop ended in the `ACTIVE` state — and
then only after the polling events — and a poll loop ending in any other
state makes the flow throw without ever issuing the analysis request. -/
theorem analysis_only_after_active (f : VideoFile) (s0 : FileSt) (next : ℕ → FileSt)
    (fuel : ℕ) (evs : List Ev) (sf : FileSt) (hsize : f.size ≤ fileSizeLimit)
    (hp : pollTrace next fuel s0 0 = some (evs, sf)) :
    Ev.analyze ∉ evs ∧ (∀ ms, Ev.wait ms ∈ evs → ms = 5000) ∧
    (sf = FileSt.ACTIVE →
      generateTranscriptAndSubtitles f s0 next fuel =
        some (Ev.upload :: evs ++ [Ev.analyze, Ev.deleteFile], true)) ∧
    (sf ≠ FileSt.ACTIVE →
      generateTranscriptAndSubtitles f s0 next fuel = some (Ev.upload :: evs, false) ∧
        Ev.analyze ∉ Ev.upload :: evs) := by
  obtain ⟨h1, _h2, h3, _h4⟩ := pollTrace_spec next fuel s0 0 evs sf hp
  have hno : ¬ f.size > fileSizeLimit := by omega
  refine ⟨h1, h3, ?_, ?_⟩
  · intro hact
    simp [generateTranscriptAndSubtitles, hno, hp, hact]
  · intro hact
    refine ⟨by simp [generateTranscriptAndSubtitles, hno, hp, hact], ?_⟩
    simp [h1]

/-- C9 witness: a file that needs one poll round before becoming `ACTIVE`
produces the trace upload, 5000 ms wait, `files.get`, analysis, delete. -/
theorem analysis_only_after_active_witness :
    generateTranscriptAndSubtitles ⟨100⟩ FileSt.PROCESSING alwaysActive 1 =
      some ([Ev.upload, Ev.wait 5000, Ev.getFile, Ev.analyze, Ev.deleteFile], true) :=
  (analysis_only_after_active ⟨100⟩ FileSt.PROCESSING alwaysActive 1
    [Ev.wait 5000, Ev.getFile] FileSt.ACTIVE (by decide) (by decide)).2.2.1 rfl

/-- C10 counterexample: the application itself does reject a video file for
its size before contacting the AI service — a file one byte over
`500 * 1024 * 1024` bytes is thrown out by `generateTranscriptAndSubtitles`
with an empty request trace: no upload and no analysis request was issued. -/
theorem oversized_rejected_before_any_request :
    generateTranscriptAndSubtitles ⟨500 * 1024 * 1024 + 1⟩ FileSt.ACTIVE alwaysActive 0 =
      some ([], false) ∧
    Ev.upload ∉ ([] : List Ev) ∧ Ev.analyze ∉ ([] : List Ev) := by
  decide

/-- C10 (amended): failure modes other than file size originate in the
external AI-service collaborator and surface as opaque error messages, but
oversized files are rejected by the application's own guard: for every file
over `500 * 1024 * 1024` bytes, `generateTranscriptAndSubtitles` throws
before issuing any upload or analysis request. -/
theorem oversized_rejected_locally (f : VideoFile) (s0 : FileSt) (next : ℕ → FileSt)
    (fuel : ℕ) (hbig : f.size > fileSizeLimit) :
    generateTranscriptAndSubtitles f s0 next fuel = some ([], false) := by
  simp [generateTranscriptAndSubtitles, hbig]

/-- C10 witness: the local size guard fires on a file seven bytes over the limit. -/
theorem oversized_rejected_locally_witness :
    generateTranscriptAndSubtitles ⟨500 * 1024 * 1024 + 7⟩ FileSt.PROCESSING alwaysActive 3 =
      some ([], false) :=
  oversized_rejected_locally ⟨500 * 1024 * 1024 + 7⟩ FileSt.PROCESSING alwaysActive 3
    (by decide)

end Transcriber
